import Mathlib

/-!
# gotk: application errors, JSON envelope and validation helpers

A shallow embedding of `apierr.go`, `json.go` and `validation.go` of the
`gotk` package, followed by theorems about the embedded functions.

Go `error` values are modelled as a tree (`GoError`): an error has a text
(`Error()`) and the errors it wraps (`Unwrap()`).  A panic is an explicit
outcome (`Outcome.panic`).  Package-level variables (`bizCodeMap`, the
`sync.Once` of the validator) are passed and returned explicitly.
-/

namespace Gotk

/-! ## Go errors -/

/-- The dynamic type of a leaf error, as far as `errors.As` / `errors.Is`
in this package can tell errors apart. -/
inductive ErrKind where
  | errorString      -- errors.New / fmt.Errorf without a wrapping verb
  | jsonSyntaxError  -- *json.SyntaxError
  | ioEOF            -- the sentinel io.EOF
  | maxBytesError    -- *http.MaxBytesError
  | other            -- any other leaf error type
  deriving DecidableEq, Repr

/-- A Go `error` value.  `wrapError` and `wrapErrors` are the two wrapper
types of package `fmt`; `apiError` is a `*ApiError` seen as an `error`. -/
inductive GoError where
  | plain (kind : ErrKind) (text : String)
  | wrapError (msg : String) (err : Option GoError)
  | wrapErrors (msg : String) (errs : List GoError)
  | apiError (message bizCode : String) (exception : Option GoError) (statusCode : Int)

/-- ApiError of `apierr.go`: message, business code, wrapped cause and HTTP
status code. -/
structure ApiError where
  message : String
  bizCode : String
  exception : Option GoError
  statusCode : Int

/-- An `*ApiError` used as an `error`. -/
def ApiError.toError (a : ApiError) : GoError :=
  .apiError a.message a.bizCode a.exception a.statusCode

/-- The type assertion `err.(*ApiError)`. -/
def GoError.asApiError : GoError → Option ApiError
  | .apiError m b e s => some ⟨m, b, e, s⟩
  | _ => none

/-- The method `Error()` of every error; for an ApiError this is
`(a *ApiError) Error()` of `apierr.go`. -/
def GoError.Error : GoError → String
  | .plain _ text => text
  | .wrapError msg _ => msg
  | .wrapErrors msg _ => msg
  | .apiError message bizCode none statusCode =>
      "[statusCode: " ++ toString statusCode ++ ", bizCode: " ++ bizCode ++
        ", message: " ++ message ++ "]"
  | .apiError message bizCode (some e) statusCode =>
      "[statusCode: " ++ toString statusCode ++ ", bizCode: " ++ bizCode ++
        ", message: " ++ message ++ ", exception: " ++ e.Error ++ "]"

/-- The errors met by `errors.Is` / `errors.As` when they walk `err`: the
error itself, then what it wraps, depth first and in operand order
(`Unwrap() error` gives one child, `Unwrap() []error` gives several). -/
def GoError.chain : GoError → List GoError
  | .plain k t => [.plain k t]
  | .wrapError m none => [.wrapError m none]
  | .wrapError m (some e) => .wrapError m (some e) :: e.chain
  | .wrapErrors m es => .wrapErrors m es :: chainList es
  | .apiError m b none s => [.apiError m b none s]
  | .apiError m b (some e) s => .apiError m b (some e) s :: e.chain
where
  /-- The walk of a list of operands, one after the other. -/
  chainList : List GoError → List GoError
    | [] => []
    | e :: es => e.chain ++ chainList es

/-- The errors directly wrapped by an error (its `Unwrap()` result). -/
def GoError.unwrapped : GoError → List GoError
  | .plain _ _ => []
  | .wrapError _ err => err.toList
  | .wrapErrors _ errs => errs
  | .apiError _ _ exception _ => exception.toList

/-- What the verb `%w` prints for an operand of interface type `error`:
the operand's `Error()` text, or the bad-verb text for a nil operand. -/
def fmtW : Option GoError → String
  | none => "%!w(<nil>)"
  | some e => e.Error

/-- The call `fmt.Errorf("%w", e)`: one wrapping verb gives a `*fmt.wrapError`
whose `Unwrap()` is the operand. -/
def Errorf1 (e : Option GoError) : GoError :=
  .wrapError (fmtW e) e

/-- The call `fmt.Errorf("%w; %w", a, b)`: two wrapping verbs give a
`*fmt.wrapErrors` whose `Unwrap()` lists the operands that are errors, in
argument order. -/
def Errorf2 (a b : Option GoError) : GoError :=
  .wrapErrors (fmtW a ++ "; " ++ fmtW b) (a.toList ++ b.toList)

/-- The call `strings.Join(elems, sep)`. -/
def stringsJoin (elems : List String) (sep : String) : String :=
  sep.intercalate elems

/-! ## apierr.go -/

/-- The result of a call that may panic. -/
inductive Outcome (α : Type) where
  | panic (msg : String)
  | ret (v : α)

/-- The package variable `bizCodeMap`, a `map[string]struct{}`: the set of
its keys. -/
abbrev Registry := Finset String

/-- NewApiError of `apierr.go`, on the registry it reads and writes. -/
def NewApiError (bizCodeMap : Registry) (statusCode : Int) (bizCode msg : String) :
    Outcome ApiError × Registry :=
  if bizCode ∈ bizCodeMap then
    (.panic ("bizCode(" ++ bizCode ++ ") already exist, please replace it"), bizCodeMap)
  else
    (.ret { message := msg, bizCode := bizCode, exception := none, statusCode := statusCode },
      insert bizCode bizCodeMap)

/-- Unwrap of `apierr.go`. -/
def ApiError.Unwrap (a : ApiError) : Option GoError := a.exception

/-- AsMessage of `apierr.go`: the struct literal it builds. -/
def ApiError.AsMessage (a : ApiError) (msg : String) : ApiError :=
  { bizCode := a.bizCode, message := msg, exception := a.exception, statusCode := a.statusCode }

/-- A value of interface type `error` as a call receives it: the nil
interface or a non-nil error (`val`), or the non-nil interface that holds a
nil `*ApiError` (`nilApiError`), such as a nil result of WriteJSON stored in
an `error`. -/
inductive ErrorValue where
  | nilApiError
  | val (err : Option GoError)

/-- The text of the panic of the Go runtime on a read through a nil pointer. -/
def nilDereference : String :=
  "runtime error: invalid memory address or nil pointer dereference"

/-- AsException of `apierr.go`.  On an interface that holds a nil
`*ApiError` the type assertion gives `ok` with a nil `apiErr`, and both
branches then read `apiErr.exception`, which panics; on every other `err` the
new struct is returned. -/
def ApiError.AsException (a : ApiError) (err : ErrorValue) (msgs : List String) :
    Outcome ApiError :=
  match err with
  | .nilApiError => .panic nilDereference
  | .val err =>
    let apiErr : Option ApiError := err.bind GoError.asApiError
    let e : GoError :=
      match a.exception with
      | none =>
        match apiErr with
        | some apiErr => Errorf1 apiErr.exception
        | none => Errorf1 err
      | some _ =>
        match apiErr with
        | some apiErr => Errorf2 a.exception apiErr.exception
        | none => Errorf2 a.exception err
    let newErr : ApiError :=
      { bizCode := a.bizCode, message := a.message, statusCode := a.statusCode,
        exception := some e }
    if msgs.length > 0 then
      .ret { newErr with message := stringsJoin msgs "," }
    else .ret newErr

/-- The `*ApiError` objects allocated so far; a pointer is an index. -/
structure Heap where
  objs : List ApiError

/-- A pointer to an ApiError. -/
abbrev Ptr := Nat

/-- Dereference a pointer. -/
def Heap.read (h : Heap) (p : Ptr) : Option ApiError := h.objs[p]?

/-- The expression `&ApiError{...}`: a new object; nothing else changes. -/
def Heap.alloc (h : Heap) (v : ApiError) : Heap × Ptr :=
  (⟨h.objs ++ [v]⟩, h.objs.length)

/-- The method call `a.AsMessage(msg)` on a pointer receiver: a nil or
dangling receiver panics on the first field read. -/
def AsMessagePtr (h : Heap) (a : Ptr) (msg : String) : Outcome (Heap × Ptr) :=
  match h.read a with
  | none => .panic nilDereference
  | some v => .ret (h.alloc (v.AsMessage msg))

/-- The method call `a.AsException(err, msgs...)` on a pointer receiver: the
receiver is read first, and the new object is allocated when the body does
not panic. -/
def AsExceptionPtr (h : Heap) (a : Ptr) (err : ErrorValue) (msgs : List String) :
    Outcome (Heap × Ptr) :=
  match h.read a with
  | none => .panic nilDereference
  | some v =>
    match v.AsException err msgs with
    | .panic p => .panic p
    | .ret newErr => .ret (h.alloc newErr)

/-- The walk of an optional error: nothing for nil. -/
def chainOpt : Option GoError → List GoError
  | none => []
  | some e => e.chain

/-! ## json.go -/

/-- The call `http.StatusText(code)`: the reason phrase of a status code, the
empty string for an unknown code. -/
def StatusText (code : Int) : String :=
  match code with
  | 100 => "Continue"
  | 101 => "Switching Protocols"
  | 102 => "Processing"
  | 103 => "Early Hints"
  | 200 => "OK"
  | 201 => "Created"
  | 202 => "Accepted"
  | 203 => "Non-Authoritative Information"
  | 204 => "No Content"
  | 205 => "Reset Content"
  | 206 => "Partial Content"
  | 207 => "Multi-Status"
  | 208 => "Already Reported"
  | 226 => "IM Used"
  | 300 => "Multiple Choices"
  | 301 => "Moved Permanently"
  | 302 => "Found"
  | 303 => "See Other"
  | 304 => "Not Modified"
  | 305 => "Use Proxy"
  | 307 => "Temporary Redirect"
  | 308 => "Permanent Redirect"
  | 400 => "Bad Request"
  | 401 => "Unauthorized"
  | 402 => "Payment Required"
  | 403 => "Forbidden"
  | 404 => "Not Found"
  | 405 => "Method Not Allowed"
  | 406 => "Not Acceptable"
  | 407 => "Proxy Authentication Required"
  | 408 => "Request Timeout"
  | 409 => "Conflict"
  | 410 => "Gone"
  | 411 => "Length Required"
  | 412 => "Precondition Failed"
  | 413 => "Request Entity Too Large"
  | 414 => "Request URI Too Long"
  | 415 => "Unsupported Media Type"
  | 416 => "Requested Range Not Satisfiable"
  | 417 => "Expectation Failed"
  | 418 => "I\x27m a teapot"
  | 421 => "Misdirected Request"
  | 422 => "Unprocessable Entity"
  | 423 => "Locked"
  | 424 => "Failed Dependency"
  | 425 => "Too Early"
  | 426 => "Upgrade Required"
  | 428 => "Precondition Required"
  | 429 => "Too Many Requests"
  | 431 => "Request Header Fields Too Large"
  | 451 => "Unavailable For Legal Reasons"
  | 500 => "Internal Server Error"
  | 501 => "Not Implemented"
  | 502 => "Bad Gateway"
  | 503 => "Service Unavailable"
  | 504 => "Gateway Timeout"
  | 505 => "HTTP Version Not Supported"
  | 506 => "Variant Also Negotiates"
  | 507 => "Insufficient Storage"
  | 508 => "Loop Detected"
  | 510 => "Not Extended"
  | 511 => "Network Authentication Required"
  | _ => ""

/-- The call `errors.New(text)`. -/
def errorsNew (text : String) : GoError := .plain .errorString text

/-- The package variable `ReadJSONMaxBytes` as initialised: `2 << 20`. -/
def ReadJSONMaxBytes : Int := 2 * 2 ^ 20

/-- JSON of `json.go`, the response envelope, over the type of the payload. -/
structure JSON (Data : Type) where
  BizCode : String
  Message : String
  Data : Data
  Version : String
  RequestID : String

/-- What a request context holds under `VersionCtxKey` and `RequestIDCtxKey`
when the value stored there is a string. -/
structure Context where
  version : Option String
  requestID : Option String

/-- FormCtxGetJSON of `json.go`: a failed type assertion leaves the empty
string. -/
def FormCtxGetJSON {Data : Type} (ctx : Context) (data : Data) (bizCode message : String) :
    JSON Data :=
  let version := ctx.version.getD ""
  let requestId := ctx.requestID.getD ""
  { BizCode := bizCode, Message := message, Data := data, Version := version,
    RequestID := requestId }

/-- An `http.Header`: keys with their values. -/
abbrev Header := List (String × List String)

/-- The map assignment `h[key] = val`. -/
def headerAssign (h : Header) (key : String) (val : List String) : Header :=
  h.filter (fun kv => kv.1 != key) ++ [(key, val)]

/-- The map read `h[key]`. -/
def headerGet (h : Header) (key : String) : Option (List String) :=
  (h.find? (fun kv => kv.1 == key)).map (fun kv => kv.2)

/-- The call `h.Set(key, value)` for a key in canonical form. -/
def headerSet (h : Header) (key value : String) : Header :=
  headerAssign h key [value]

/-- The state of an `http.ResponseWriter`: its header map, the status code
of the first `WriteHeader` and the body written. -/
structure ResponseWriter where
  header : Header
  status : Option Int
  body : String

/-- The call `w.WriteHeader(code)` of the standard writers: a call after the
header is written is ignored; otherwise a code outside 100..999 panics and
any other code is taken as the status. -/
def ResponseWriter.WriteHeader (w : ResponseWriter) (code : Int) : Outcome ResponseWriter :=
  if w.status.isSome then .ret w
  else if code < 100 ∨ code > 999 then
    .panic ("invalid WriteHeader code " ++ toString code)
  else .ret { w with status := some code }

/-- The call `w.Write(buf)`; `fail` is the error the connection gives, nil
when the bytes are written.  A write before any `WriteHeader` sends status
200 first. -/
def ResponseWriter.Write (w : ResponseWriter) (buf : String) (fail : Option GoError) :
    ResponseWriter × Option GoError :=
  let w := if w.status.isSome then w else { w with status := some 200 }
  match fail with
  | some err => (w, some err)
  | none => ({ w with body := w.body ++ buf }, none)

/-- The loops of WriteJSON over `headers`: every key of every given header
is assigned in the header map of the response, later ones over earlier ones. -/
def mergeHeaders (h : Header) (headers : List Header) : Header :=
  headers.foldl (fun acc hdr => hdr.foldl (fun acc kv => headerAssign acc kv.1 kv.2) acc) h

/-- The built-in error WriteJSON takes for a nil `apiErr`. -/
def nilApiErr : ApiError :=
  { message := StatusText 500, bizCode := toString (500 : Int),
    exception := some (errorsNew "apiErr *ApiError 不能为nil"), statusCode := 500 }

/-- WriteJSON of `json.go`.  `marshal` is `json.Marshal` on the envelope and
`writeFail` the outcome of `w.Write`, both giving errors of their own
packages; `r.Context()` is `ctx`.  On a failed serialisation the value of
`apiErr.AsException` is not used: the source calls it as a statement and
returns `apiErr`. -/
def WriteJSON {Data : Type} (marshal : JSON Data → Except GoError String)
    (writeFail : Option GoError) (w : ResponseWriter) (ctx : Context)
    (apiErr : Option ApiError) (data : Data) (headers : List Header) :
    Outcome (ResponseWriter × Option ApiError) :=
  let apiErr : ApiError :=
    match apiErr with
    | none => nilApiErr
    | some a => a
  let js := FormCtxGetJSON ctx data apiErr.bizCode apiErr.message
  match marshal js with
  | .error err =>
    match w.WriteHeader 500 with
    | .panic p => .panic p
    | .ret w =>
      let w := { w with header := headerSet w.header "Status" (StatusText 500) }
      match apiErr.AsException (.val (some err)) ["json无法解析data数据"] with
      | .panic p => .panic p
      | .ret _ => .ret (w, some apiErr)
  | .ok buf =>
    let w := if headers.length > 0 then { w with header := mergeHeaders w.header headers } else w
    let w := { w with header := headerSet w.header "Content-Type" "application/json" }
    let w := { w with header := headerSet w.header "Status" (StatusText apiErr.statusCode) }
    match w.WriteHeader apiErr.statusCode with
    | .panic p => .panic p
    | .ret w =>
      match w.Write buf writeFail with
      | (w, some err) =>
        match apiErr.AsException (.val (some err)) ["写入response错误"] with
        | .panic p => .panic p
        | .ret newErr => .ret (w, some newErr)
      | (w, none) => .ret (w, none)

/-- The call `errors.As(err, &syntaxError)` for a target of the leaf type
`kind`: some error on the walk has that type. -/
def errorsAs (err : GoError) (kind : ErrKind) : Bool :=
  err.chain.any fun x =>
    match x with
    | .plain k _ => k == kind
    | _ => false

/-- The call `errors.Is(err, io.EOF)`: the sentinel is on the walk. -/
def errorsIsEOF (err : GoError) : Bool :=
  errorsAs err .ioEOF

/-- The call `strings.Contains(s, substr)`. -/
def stringsContains (s substr : String) : Bool :=
  s.data.tails.any fun t => substr.data.isPrefixOf t

/-- ReadJSON of `json.go`, from the error `dec.Decode(dst)` gives on the body
cut at `maxBytes` (nil when the body decodes); `maxBytes` is the value of the
package variable `ReadJSONMaxBytes`. -/
def ReadJSON (maxBytes : Int) (decodeErr : Option GoError) : Option GoError :=
  match decodeErr with
  | some err =>
    if errorsAs err .jsonSyntaxError then
      some (errorsNew "请输入JSON格式请求体")
    else if errorsIsEOF err then
      some (errorsNew "请求体不能为空")
    else if stringsContains err.Error "http: request body too large" then
      some (errorsNew ("请求体大小不能超过 " ++ toString maxBytes ++ " MB"))
    else
      some (errorsNew "未知错误，请检查参数")
  | none => none

/-! ## validation.go -/

/-- One item of a regular expression that takes exactly one character. -/
inductive CharClass where
  | lit (c : Char)
  | range (lo hi : Char)
  | digit
  deriving DecidableEq, Repr

/-- Whether a character is in the class; the class `\d` is the ASCII digits. -/
def CharClass.accepts : CharClass → Char → Bool
  | .lit c, x => x == c
  | .range lo hi, x => decide (lo ≤ x) && decide (x ≤ hi)
  | .digit, x => x.isDigit

/-- A compiled regular expression of the shape used here: a sequence of
one-character items, anchored or not at the start (`^`) and at the end of the
text (`$`). -/
structure Regexp where
  anchorStart : Bool
  items : List CharClass
  anchorEnd : Bool

/-- Match the items at the head of the text. -/
def Regexp.matchHere (anchorEnd : Bool) : List CharClass → List Char → Bool
  | [], rest => !anchorEnd || rest.isEmpty
  | _ :: _, [] => false
  | i :: is, c :: cs => i.accepts c && Regexp.matchHere anchorEnd is cs

/-- The method `MatchString`: the expression matches somewhere in the text. -/
def Regexp.MatchString (re : Regexp) (s : String) : Bool :=
  if re.anchorStart then Regexp.matchHere re.anchorEnd re.items s.data
  else s.data.tails.any (Regexp.matchHere re.anchorEnd re.items)

/-- The package variable `phoneRX`, the expression `^1[3-9]\d{9}$`. -/
def phoneRX : Regexp :=
  { anchorStart := true,
    items := [.lit '1', .range '3' '9'] ++ List.replicate 9 .digit,
    anchorEnd := true }

/-- The value of a struct field as `fieldLevel.Field().Interface()` gives it:
a `string`, or a value of another dynamic type. -/
inductive FieldValue where
  | string (val : String)
  | namedString (typeName : String) (val : String)
  | int (n : Int)
  | bool (b : Bool)
  | other (typeName : String)

/-- The validation function registered under the tag `vphone`. -/
def vphone (field : FieldValue) : Bool :=
  match field with
  | .string val => if phoneRX.MatchString val then true else false
  | _ => false

/-- A struct tag, as its key/value pairs in the order written. -/
abbrev StructTag := List (String × String)

/-- The method `Tag.Get(key)`: the value of the key, the empty string when the
key is absent. -/
def StructTag.Get (tag : StructTag) (key : String) : String :=
  match tag.find? (fun kv => kv.1 == key) with
  | some kv => kv.2
  | none => ""

/-- A `reflect.StructField`: the declared name and the tag. -/
structure StructField where
  Name : String
  Tag : StructTag

/-- The expression `strings.SplitN(s, ",", 2)[0]`: the text before the first
comma, all of the text when it has none. -/
def splitNHead (s : String) : String :=
  String.mk (s.data.takeWhile (fun c => c != ','))

/-- The function given to `RegisterTagNameFunc` in InitValidation. -/
def tagNameFunc (fld : StructField) : String :=
  let name := splitNHead (fld.Tag.Get "zh")
  if name == "-" then ""
  else
    let name := splitNHead (fld.Tag.Get "json")
    if name == "-" then ""
    else
      let name := splitNHead (fld.Tag.Get "form")
      if name == "-" then ""
      else
        let name := if name == "" then fld.Name else name
        name ++ " "

/-- A `ut.Translator`: the locale it translates to. -/
structure Translator where
  locale : String

/-- A `*validator.Validate`: the custom validations by tag, the field-naming
function and the locale whose default translations are registered. -/
structure Validate where
  validations : List (String × (FieldValue → Bool))
  tagNameFunc : Option (StructField → String)
  translations : Option String

/-- The call `validator.New()`. -/
def validatorNew : Validate :=
  { validations := [], tagNameFunc := none, translations := none }

/-- The method `RegisterValidation(tag, fn)`: a map assignment. -/
def Validate.RegisterValidation (v : Validate) (tag : String) (fn : FieldValue → Bool) :
    Validate :=
  { v with validations := v.validations.filter (fun kv => kv.1 != tag) ++ [(tag, fn)] }

/-- The method `RegisterTagNameFunc(fn)`. -/
def Validate.RegisterTagNameFunc (v : Validate) (fn : StructField → String) : Validate :=
  { v with tagNameFunc := some fn }

/-- The calls `zh_translations.RegisterDefaultTranslations` and
`en_translations.RegisterDefaultTranslations`, by the locale of the package. -/
def Validate.RegisterDefaultTranslations (v : Validate) (locale : String) : Validate :=
  { v with translations := some locale }

/-- RegisterValidationHandler of `validation.go`: a function that works on
the validator. -/
abbrev RegisterValidationHandler := Validate → Validate

/-- The call `uni.GetTranslator(locale)` on `ut.New(en, en, zh)`: the
translator of a supported locale, else the fallback `en` and false. -/
def GetTranslator (locale : String) : Translator × Bool :=
  if locale == "en" || locale == "zh" then (⟨locale⟩, true) else (⟨"en"⟩, false)

/-- The package variables of `validation.go`: the `sync.Once`, `trans` and
`validate`; `setupRuns` counts the runs of the function given to `once.Do`. -/
structure ValidationState where
  onceDone : Bool
  trans : Option Translator
  validate : Option Validate
  setupRuns : Nat

/-- The package variables at process start. -/
def ValidationState.initial : ValidationState :=
  { onceDone := false, trans := none, validate := none, setupRuns := 0 }

/-- The function InitValidation gives to `once.Do`. -/
def initBody (st : ValidationState) (locale : String)
    (customHandlers : List RegisterValidationHandler) : ValidationState :=
  let locale := if !(locale == "zh" || locale == "en") then "zh" else locale
  let trans := (GetTranslator locale).1
  let validate := validatorNew
  let validate := validate.RegisterValidation "vphone" vphone
  let validate :=
    if customHandlers.length > 0 then customHandlers.foldl (fun v handle => handle v) validate
    else validate
  let validate := validate.RegisterTagNameFunc tagNameFunc
  let validate :=
    if locale == "zh" then validate.RegisterDefaultTranslations "zh"
    else validate.RegisterDefaultTranslations "en"
  { st with trans := some trans, validate := some validate, setupRuns := st.setupRuns + 1 }

/-- InitValidation of `validation.go`: `once.Do` runs the body on the first
call only; the call returns the package variables. -/
def InitValidation (st : ValidationState) (locale : String)
    (customHandlers : List RegisterValidationHandler) :
    ValidationState × (Option Translator × Option Validate) :=
  let st :=
    if st.onceDone then st
    else { initBody st locale customHandlers with onceDone := true }
  (st, (st.trans, st.validate))

/-- A sequence of calls of InitValidation, each with its locale and handlers:
the package variables at the end and what each call returned. -/
def initCalls (st : ValidationState) :
    List (String × List RegisterValidationHandler) →
      ValidationState × List (Option Translator × Option Validate)
  | [] => (st, [])
  | c :: cs =>
    let r := InitValidation st c.1 c.2
    let rest := initCalls r.1 cs
    (rest.1, r.2 :: rest.2)

/-- An ApiError of the catalogue, used as the error handed to AsException. -/
def innerError : ApiError :=
  { message := "user not found", bizCode := "USER_NOT_FOUND", exception := none,
    statusCode := 404 }

/-- The error `fmt.Errorf("lookup: %w", innerError)`. -/
def lookupError : GoError :=
  .wrapError ("lookup: " ++ innerError.toError.Error) (some innerError.toError)

/-- An ApiError whose cause already wraps `innerError`: what the catalogue
entry INTERNAL gives on `AsException(lookupError)`. -/
def outerError : ApiError :=
  { message := "internal", bizCode := "INTERNAL",
    exception := some (Errorf1 (some lookupError)), statusCode := 500 }

/-! ## Theorems: apierr.go -/

/-- C1: NewApiError panics exactly when the business code is already in the
registry and then leaves the registry as it was; otherwise it returns the
error made of its three arguments, without a cause, and the registry gains
the code.  Hence two fresh, distinct codes are both accepted and a third
construction with either of them panics. -/
theorem NewApiError_registry_contract (reg : Registry) (statusCode : Int)
    (bizCode msg : String) :
    ((∃ p, (NewApiError reg statusCode bizCode msg).1 = .panic p) ↔ bizCode ∈ reg) ∧
    (bizCode ∈ reg → (NewApiError reg statusCode bizCode msg).2 = reg) ∧
    (bizCode ∉ reg → NewApiError reg statusCode bizCode msg =
      (.ret { message := msg, bizCode := bizCode, exception := none,
              statusCode := statusCode }, insert bizCode reg)) ∧
    (∀ (s2 : Int) (c2 m2 : String) (s3 : Int) (c3 m3 : String),
      bizCode ∉ reg → c2 ∉ reg → bizCode ≠ c2 → (c3 = bizCode ∨ c3 = c2) →
      ∃ a1 a2 p,
        NewApiError reg statusCode bizCode msg = (.ret a1, insert bizCode reg) ∧
        NewApiError (insert bizCode reg) s2 c2 m2
          = (.ret a2, insert c2 (insert bizCode reg)) ∧
        NewApiError (insert c2 (insert bizCode reg)) s3 c3 m3
          = (.panic p, insert c2 (insert bizCode reg))) := by
  refine ⟨?_, ?_, ?_, ?_⟩
  · constructor
    · rintro ⟨p, hp⟩
      by_contra hmem
      simp [NewApiError, hmem] at hp
    · intro hmem
      exact ⟨"bizCode(" ++ bizCode ++ ") already exist, please replace it",
        by simp [NewApiError, hmem]⟩
  · intro hmem
    simp [NewApiError, hmem]
  · intro hmem
    simp [NewApiError, hmem]
  · intro s2 c2 m2 s3 c3 m3 h1 h2 hne h3
    have h2' : c2 ∉ insert bizCode reg := by
      simp only [Finset.mem_insert, not_or]
      exact ⟨fun h => hne h.symm, h2⟩
    have h3' : c3 ∈ insert c2 (insert bizCode reg) := by
      rcases h3 with rfl | rfl <;> simp
    exact ⟨{ message := msg, bizCode := bizCode, exception := none, statusCode := statusCode },
      { message := m2, bizCode := c2, exception := none, statusCode := s2 },
      "bizCode(" ++ c3 ++ ") already exist, please replace it",
      by simp [NewApiError, h1], by simp [NewApiError, h2'], by simp [NewApiError, h3']⟩

/-- Witness of C1: on the empty registry the codes A and B are accepted in
turn and a second A panics. -/
theorem NewApiError_registry_contract_witness :
    ∃ a1 a2 p,
      NewApiError ∅ 404 "A" "first" = (.ret a1, insert "A" ∅) ∧
      NewApiError (insert "A" ∅) 409 "B" "second" = (.ret a2, insert "B" (insert "A" ∅)) ∧
      NewApiError (insert "B" (insert "A" ∅)) 500 "A" "third"
        = (.panic p, insert "B" (insert "A" ∅)) :=
  (NewApiError_registry_contract ∅ 404 "A" "first").2.2.2 409 "B" "second" 500 "A" "third"
    (by simp) (by simp) (by decide) (Or.inl rfl)

/-- What AsException returns on every `err` that is not the interface
holding a nil `*ApiError`, by the four branches of the source. -/
theorem AsException_val (a : ApiError) (err : Option GoError) (msgs : List String) :
    a.AsException (.val err) msgs = .ret
      { message := if msgs = [] then a.message else stringsJoin msgs ",",
        bizCode := a.bizCode,
        exception := some (match a.exception, err.bind GoError.asApiError with
          | none, some apiErr => Errorf1 apiErr.exception
          | none, none => Errorf1 err
          | some x, some apiErr => Errorf2 (some x) apiErr.exception
          | some x, none => Errorf2 (some x) err),
        statusCode := a.statusCode } := by
  unfold ApiError.AsException
  cases msgs <;> cases hx : a.exception <;> cases hy : err.bind GoError.asApiError <;>
    simp [hy]

/-- C2, as stated, fails: on an `err` that is the interface holding a nil
`*ApiError`, AsException panics on reading `apiErr.exception` and returns no
error at all. -/
theorem AsException_nil_pointer_argument_panics :
    ApiError.AsException ⟨"not found", "USER_NOT_FOUND", none, 404⟩ .nilApiError []
      = .panic nilDereference ∧
    AsExceptionPtr ⟨[⟨"not found", "USER_NOT_FOUND", none, 404⟩]⟩ 0 .nilApiError []
      = .panic nilDereference := by
  constructor <;> rfl

/-- C2, amended: on a valid receiver, AsMessage allocates an error with the
receiver's bizCode, statusCode and cause and the new message; for every
`err` that is not the interface holding a nil `*ApiError`, AsException
allocates an error with the receiver's bizCode and statusCode whose message
is the receiver's when no message is given and the comma-join of the given
ones otherwise; both leave every object that existed before, the receiver
included, as it was. -/
theorem AsMessage_AsException_frame (h : Heap) (a : Ptr) (v : ApiError) (msg : String)
    (err : ErrorValue) (msgs : List String) (hv : h.read a = some v)
    (herr : err ≠ .nilApiError) :
    (∃ h1 p r, AsMessagePtr h a msg = .ret (h1, p) ∧ h1.read p = some r ∧ p ≠ a ∧
        r.bizCode = v.bizCode ∧ r.statusCode = v.statusCode ∧
        r.exception = v.exception ∧ r.message = msg ∧
        h1.read a = some v ∧ ∀ q x, h.read q = some x → h1.read q = some x) ∧
    (∃ h2 p r, AsExceptionPtr h a err msgs = .ret (h2, p) ∧ h2.read p = some r ∧ p ≠ a ∧
        r.bizCode = v.bizCode ∧ r.statusCode = v.statusCode ∧
        r.message = (if msgs = [] then v.message else stringsJoin msgs ",") ∧
        h2.read a = some v ∧ ∀ q x, h.read q = some x → h2.read q = some x) := by
  have hlt : a < h.objs.length := by
    by_contra hge
    have hnone : h.objs[a]? = none := List.getElem?_eq_none (Nat.le_of_not_lt hge)
    simp [Heap.read, hnone] at hv
  have keep : ∀ (w : ApiError) (q : Ptr) (x : ApiError),
      h.read q = some x → (h.alloc w).1.read q = some x := by
    intro w q x hq
    have hq2 : q < h.objs.length := by
      by_contra hge
      have hnone : h.objs[q]? = none := List.getElem?_eq_none (Nat.le_of_not_lt hge)
      simp [Heap.read, hnone] at hq
    simp only [Heap.read, Heap.alloc] at hq ⊢
    rw [List.getElem?_append_left hq2]
    exact hq
  have fresh : ∀ w : ApiError, (h.alloc w).1.read (h.alloc w).2 = some w := by
    intro w
    simp [Heap.read, Heap.alloc]
  have hne : h.objs.length ≠ a := Nat.ne_of_gt hlt
  constructor
  · refine ⟨(h.alloc (v.AsMessage msg)).1, (h.alloc (v.AsMessage msg)).2, v.AsMessage msg,
      ?_, fresh _, hne, rfl, rfl, rfl, rfl, keep _ a v hv, keep _⟩
    simp [AsMessagePtr, hv]
  · cases err with
    | nilApiError => exact absurd rfl herr
    | val e =>
      obtain ⟨r, hr, hb, hs, hm⟩ : ∃ r, v.AsException (.val e) msgs = .ret r ∧
          r.bizCode = v.bizCode ∧ r.statusCode = v.statusCode ∧
          r.message = (if msgs = [] then v.message else stringsJoin msgs ",") :=
        ⟨_, AsException_val v e msgs, rfl, rfl, rfl⟩
      refine ⟨(h.alloc r).1, (h.alloc r).2, r, ?_, fresh r, hne, hb, hs, hm,
        keep _ a v hv, keep _⟩
      simp only [AsExceptionPtr, hv, hr]

/-- Witness of C2 amended: a heap holding one error, derived from twice. -/
theorem AsMessage_AsException_frame_witness :
    (∃ h1 p r, AsMessagePtr ⟨[⟨"not found", "USER_NOT_FOUND", none, 404⟩]⟩ 0 "gone"
          = .ret (h1, p) ∧ h1.read p = some r ∧ p ≠ 0 ∧
        r.bizCode = "USER_NOT_FOUND" ∧ r.statusCode = 404 ∧
        r.exception = none ∧ r.message = "gone" ∧
        h1.read 0 = some ⟨"not found", "USER_NOT_FOUND", none, 404⟩ ∧
        ∀ q x, Heap.read ⟨[⟨"not found", "USER_NOT_FOUND", none, 404⟩]⟩ q = some x →
          h1.read q = some x) ∧
    (∃ h2 p r, AsExceptionPtr ⟨[⟨"not found", "USER_NOT_FOUND", none, 404⟩]⟩ 0
          (.val (some (.plain .errorString "no rows"))) ["a", "b"] = .ret (h2, p) ∧
        h2.read p = some r ∧ p ≠ 0 ∧
        r.bizCode = "USER_NOT_FOUND" ∧ r.statusCode = 404 ∧
        r.message = (if ["a", "b"] = [] then "not found" else stringsJoin ["a", "b"] ",") ∧
        h2.read 0 = some ⟨"not found", "USER_NOT_FOUND", none, 404⟩ ∧
        ∀ q x, Heap.read ⟨[⟨"not found", "USER_NOT_FOUND", none, 404⟩]⟩ q = some x →
          h2.read q = some x) :=
  AsMessage_AsException_frame ⟨[⟨"not found", "USER_NOT_FOUND", none, 404⟩]⟩ 0
    ⟨"not found", "USER_NOT_FOUND", none, 404⟩ "gone"
    (.val (some (.plain .errorString "no rows"))) ["a", "b"] rfl (fun h => by cases h)

/-! ### The cause chain -/

/-- The walk of an error starts with the error itself. -/
theorem GoError.chain_eq_cons (e : GoError) : ∃ t, e.chain = e :: t := by
  cases e with
  | plain k t => exact ⟨[], by simp [GoError.chain]⟩
  | wrapError m err =>
    cases err with
    | none => exact ⟨[], by simp [GoError.chain]⟩
    | some x => exact ⟨x.chain, by simp [GoError.chain]⟩
  | wrapErrors m es => exact ⟨GoError.chain.chainList es, by simp [GoError.chain]⟩
  | apiError m b err st =>
    cases err with
    | none => exact ⟨[], by simp [GoError.chain]⟩
    | some x => exact ⟨x.chain, by simp [GoError.chain]⟩

/-- The walk of two optional operands in a row. -/
theorem chainList_toList_append (a b : Option GoError) :
    GoError.chain.chainList (a.toList ++ b.toList) = chainOpt a ++ chainOpt b := by
  cases a <;> cases b <;> simp [GoError.chain.chainList, chainOpt]

/-- The walk of the one-operand wrapper. -/
theorem Errorf1_chain (e : Option GoError) :
    (Errorf1 e).chain = Errorf1 e :: chainOpt e := by
  cases e <;> simp [Errorf1, GoError.chain, chainOpt]

/-- The walk of the two-operand wrapper. -/
theorem Errorf2_chain (a b : Option GoError) :
    (Errorf2 a b).chain = Errorf2 a b :: (chainOpt a ++ chainOpt b) := by
  simp [Errorf2, GoError.chain, chainList_toList_append]

/-- What is met on the walk of the receiver's cause is still met on the walk
of the cause AsException builds. -/
theorem AsException_keeps_chain (a r : ApiError) (err : Option GoError) (msgs : List String)
    (hr : a.AsException (.val err) msgs = .ret r)
    (y : GoError) (hy : y ∈ chainOpt a.exception) :
    y ∈ chainOpt r.exception := by
  rw [AsException_val] at hr
  cases hr
  cases ha : a.exception with
  | none => rw [ha] at hy; simp [chainOpt] at hy
  | some x =>
    rw [ha] at hy
    cases err.bind GoError.asApiError <;>
      simp only [chainOpt, Errorf2_chain, List.mem_cons, List.mem_append] <;>
      exact Or.inr (Or.inl hy)

/-- C3: appending the plain errors B and then C to an error whose cause is A
returns an error whose cause has the texts of A, B and C joined by "; " as
its text and whose walk by unwrapping meets A, then B, then C; appending B to
an error without cause returns an error whose cause wraps exactly B. -/
theorem AsException_chain_order (a : ApiError) (B C : GoError) (msgsB msgsC : List String)
    (hB : B.asApiError = none) (hC : C.asApiError = none) :
    (∀ A, a.exception = some A →
      ∃ r1 r2 e e1 tA tB tC,
        a.AsException (.val (some B)) msgsB = .ret r1 ∧
        r1.AsException (.val (some C)) msgsC = .ret r2 ∧
        r2.Unwrap = some e ∧
        e.Error = A.Error ++ "; " ++ B.Error ++ "; " ++ C.Error ∧
        e.chain = e :: e1 :: (A.chain ++ B.chain ++ C.chain) ∧
        e.chain = [e, e1] ++ (A :: tA) ++ (B :: tB) ++ (C :: tC)) ∧
    (a.exception = none →
      ∃ r e, a.AsException (.val (some B)) msgsB = .ret r ∧ r.Unwrap = some e ∧
        e.unwrapped = [B] ∧ e.Error = B.Error ∧ e.chain = e :: B.chain) := by
  constructor
  · intro A hA
    obtain ⟨tA, htA⟩ := A.chain_eq_cons
    obtain ⟨tB, htB⟩ := B.chain_eq_cons
    obtain ⟨tC, htC⟩ := C.chain_eq_cons
    have hch : (Errorf2 (some (Errorf2 (some A) (some B))) (some C)).chain
        = Errorf2 (some (Errorf2 (some A) (some B))) (some C)
            :: Errorf2 (some A) (some B) :: (A.chain ++ B.chain ++ C.chain) := by
      rw [Errorf2_chain]; simp [chainOpt, Errorf2_chain]
    refine ⟨_, _, Errorf2 (some (Errorf2 (some A) (some B))) (some C),
      Errorf2 (some A) (some B), tA, tB, tC, AsException_val a (some B) msgsB,
      AsException_val _ (some C) msgsC, ?_, ?_, hch, ?_⟩
    · simp [ApiError.Unwrap, hA, hB, hC]
    · simp [Errorf2, fmtW, GoError.Error, String.append_assoc]
    · rw [hch, htA, htB, htC]; simp
  · intro hnone
    refine ⟨_, Errorf1 (some B), AsException_val a (some B) msgsB, ?_, ?_, ?_, ?_⟩
    · simp [ApiError.Unwrap, hnone, hB]
    · simp [Errorf1, GoError.unwrapped]
    · simp [Errorf1, fmtW, GoError.Error]
    · rw [Errorf1_chain]; rfl

/-- Witness of C3: the causes root, b and c. -/
theorem AsException_chain_order_witness :
    ∃ r1 r2 e e1 tA tB tC,
      ApiError.AsException ⟨"m", "K", some (.plain .errorString "root"), 500⟩
          (.val (some (.plain .errorString "b"))) [] = .ret r1 ∧
      r1.AsException (.val (some (.plain .errorString "c"))) [] = .ret r2 ∧
      r2.Unwrap = some e ∧
      e.Error = (GoError.plain .errorString "root").Error ++ "; " ++
          (GoError.plain .errorString "b").Error ++ "; " ++
          (GoError.plain .errorString "c").Error ∧
      e.chain = e :: e1 :: ((GoError.plain .errorString "root").chain ++
          (GoError.plain .errorString "b").chain ++ (GoError.plain .errorString "c").chain) ∧
      e.chain = [e, e1] ++ (GoError.plain .errorString "root" :: tA) ++
          (GoError.plain .errorString "b" :: tB) ++ (GoError.plain .errorString "c" :: tC) :=
  (AsException_chain_order ⟨"m", "K", some (.plain .errorString "root"), 500⟩
    (.plain .errorString "b") (.plain .errorString "c") [] [] rfl rfl).1
    (.plain .errorString "root") rfl

mutual
/-- Every error met on the walk of an error is no larger than the error. -/
theorem GoError.sizeOf_le_of_mem_chain :
    ∀ (e x : GoError), x ∈ e.chain → sizeOf x ≤ sizeOf e
  | .plain k t, x, h => by
    simp only [GoError.chain, List.mem_singleton] at h
    subst h; exact le_refl _
  | .wrapError m none, x, h => by
    simp only [GoError.chain, List.mem_singleton] at h
    subst h; exact le_refl _
  | .wrapError m (some e), x, h => by
    simp only [GoError.chain, List.mem_cons] at h
    rcases h with rfl | h
    · exact le_refl _
    · have := GoError.sizeOf_le_of_mem_chain e x h
      simp only [GoError.wrapError.sizeOf_spec, Option.some.sizeOf_spec]
      omega
  | .wrapErrors m es, x, h => by
    simp only [GoError.chain, List.mem_cons] at h
    rcases h with rfl | h
    · exact le_refl _
    · have := GoError.sizeOf_le_of_mem_chainList es x h
      simp only [GoError.wrapErrors.sizeOf_spec]
      omega
  | .apiError m b none s, x, h => by
    simp only [GoError.chain, List.mem_singleton] at h
    subst h; exact le_refl _
  | .apiError m b (some e) s, x, h => by
    simp only [GoError.chain, List.mem_cons] at h
    rcases h with rfl | h
    · exact le_refl _
    · have := GoError.sizeOf_le_of_mem_chain e x h
      simp only [GoError.apiError.sizeOf_spec, Option.some.sizeOf_spec]
      omega
/-- The same for the walk of a list of operands. -/
theorem GoError.sizeOf_le_of_mem_chainList :
    ∀ (es : List GoError) (x : GoError), x ∈ GoError.chain.chainList es →
      sizeOf x ≤ sizeOf es
  | [], x, h => by simp [GoError.chain.chainList] at h
  | e :: es, x, h => by
    simp only [GoError.chain.chainList, List.mem_append] at h
    simp only [List.cons.sizeOf_spec]
    rcases h with h | h
    · have := GoError.sizeOf_le_of_mem_chain e x h
      omega
    · have := GoError.sizeOf_le_of_mem_chainList es x h
      omega
end

/-- An ApiError is not met on the walk of its own cause. -/
theorem ApiError.not_mem_chain_exception (e : ApiError) :
    e.toError ∉ chainOpt e.exception := by
  intro h
  cases hx : e.exception with
  | none => simp [hx, chainOpt] at h
  | some x =>
    rw [hx] at h
    have hle := GoError.sizeOf_le_of_mem_chain x e.toError h
    simp only [ApiError.toError, hx, GoError.apiError.sizeOf_spec,
      Option.some.sizeOf_spec] at hle
    omega

/-- C4, as stated, fails: when the receiver's cause already wraps the
ApiError that is handed in, that ApiError is met when the result is
unwrapped, and its text is part of the text of the result's cause. -/
theorem AsException_merged_error_still_reachable :
    ApiError.AsException ⟨"internal", "INTERNAL", none, 500⟩ (.val (some lookupError)) []
      = .ret outerError ∧
    outerError.AsException (.val (some innerError.toError)) [] =
      .ret ⟨"internal", "INTERNAL",
        some (.wrapErrors
          ("lookup: [statusCode: 404, bizCode: USER_NOT_FOUND, message: user not found]; %!w(<nil>)")
          [.wrapError "lookup: [statusCode: 404, bizCode: USER_NOT_FOUND, message: user not found]"
            (some (.wrapError
              "lookup: [statusCode: 404, bizCode: USER_NOT_FOUND, message: user not found]"
              (some innerError.toError)))]), 500⟩ ∧
    innerError.toError ∈ chainOpt (ApiError.Unwrap ⟨"internal", "INTERNAL",
        some (.wrapErrors
          ("lookup: [statusCode: 404, bizCode: USER_NOT_FOUND, message: user not found]; %!w(<nil>)")
          [.wrapError "lookup: [statusCode: 404, bizCode: USER_NOT_FOUND, message: user not found]"
            (some (.wrapError
              "lookup: [statusCode: 404, bizCode: USER_NOT_FOUND, message: user not found]"
              (some innerError.toError)))]), 500⟩) := by
  refine ⟨?_, ?_, ?_⟩
  · rw [AsException_val]
    simp [outerError, lookupError, GoError.asApiError]
  · rw [AsException_val]
    simp [outerError, lookupError, innerError, ApiError.toError, GoError.asApiError, Errorf1,
      Errorf2, fmtW, GoError.Error]
    decide
  · simp [ApiError.Unwrap, chainOpt, GoError.chain, GoError.chain.chainList, innerError,
      ApiError.toError]

/-- C4, amended: when an ApiError e is handed to AsException, the result is
the same for every ApiError with the cause of e, so the message, bizCode and
statusCode of e have no part in it; the result keeps the receiver's bizCode
and statusCode; its cause wraps exactly the receiver's cause (if any)
followed by the cause of e (if any); and e is met on unwrapping the result
only if it was already met on unwrapping the receiver's cause. -/
theorem AsException_merges_cause_only (a e : ApiError) (msgs : List String) :
    ∃ r, a.AsException (.val (some e.toError)) msgs = .ret r ∧
      (∀ e2 : ApiError, e2.exception = e.exception →
        a.AsException (.val (some e2.toError)) msgs = .ret r) ∧
      r.bizCode = a.bizCode ∧
      r.statusCode = a.statusCode ∧
      r.message = (if msgs = [] then a.message else stringsJoin msgs ",") ∧
      (∃ c, r.Unwrap = some c ∧
        c.unwrapped = a.exception.toList ++ e.exception.toList ∧
        c.chain = c :: (chainOpt a.exception ++ chainOpt e.exception) ∧
        (e.toError ∈ c.chain ↔ e.toError ∈ chainOpt a.exception)) := by
  have hbind : ∀ x : ApiError, (some x.toError).bind GoError.asApiError = some x := by
    intro x; rfl
  refine ⟨_, AsException_val a (some e.toError) msgs, ?_, rfl, rfl, rfl, ?_⟩
  · intro e2 h2
    rw [AsException_val]
    simp only [hbind]
    cases a.exception <;> simp only [h2]
  · have hself := e.not_mem_chain_exception
    cases ha : a.exception with
    | none =>
      refine ⟨Errorf1 e.exception, ?_, ?_, ?_, ?_⟩
      · simp [ApiError.Unwrap, hbind, ha]
      · simp [Errorf1, GoError.unwrapped]
      · rw [Errorf1_chain]; simp [chainOpt]
      · rw [Errorf1_chain]
        have hne : e.toError ≠ Errorf1 e.exception := by
          simp [Errorf1, ApiError.toError]
        have hnil : chainOpt none = [] := rfl
        simp only [List.mem_cons, hne, hself, false_or, hnil, List.not_mem_nil]
    | some x =>
      refine ⟨Errorf2 (some x) e.exception, ?_, ?_, ?_, ?_⟩
      · simp [ApiError.Unwrap, hbind, ha]
      · simp [Errorf2, GoError.unwrapped]
      · rw [Errorf2_chain]
      · rw [Errorf2_chain]
        have hne : e.toError ≠ Errorf2 (some x) e.exception := by
          simp [Errorf2, ApiError.toError]
        simp only [List.mem_cons, List.mem_append, hne, hself, false_or, or_false]

/-- Witness of C4 amended: two catalogue errors without cause merged into the
error whose cause already wraps one of them give the same result. -/
theorem AsException_merges_cause_only_witness :
    ∃ r, ApiError.AsException outerError (.val (some innerError.toError)) ["x"] = .ret r ∧
      ApiError.AsException outerError
        (.val (some (ApiError.toError ⟨"conflict", "USER_CONFLICT", none, 409⟩))) ["x"]
          = .ret r := by
  obtain ⟨r, h1, h2, _⟩ := AsException_merges_cause_only outerError innerError ["x"]
  exact ⟨r, h1, h2 ⟨"conflict", "USER_CONFLICT", none, 409⟩ rfl⟩

/-! ## Theorems: json.go -/

/-- The reason phrase of status 500. -/
theorem StatusText_500 : StatusText 500 = "Internal Server Error" := by decide

/-- After the entries of a key are filtered out, the key is not found. -/
theorem find?_filter_ne_self (h : Header) (key : String) :
    (h.filter (fun kv => kv.1 != key)).find? (fun kv => kv.1 == key) = none := by
  induction h with
  | nil => rfl
  | cons kv t ih =>
    by_cases hk : kv.1 = key
    · simp [List.filter_cons, hk, ih]
    · simp [List.filter_cons, List.find?_cons, hk, ih]

/-- Filtering out the entries of one key leaves the search for another. -/
theorem find?_filter_ne_other (h : Header) (key other : String) (hne : other ≠ key) :
    (h.filter (fun kv => kv.1 != other)).find? (fun kv => kv.1 == key)
      = h.find? (fun kv => kv.1 == key) := by
  induction h with
  | nil => rfl
  | cons kv t ih =>
    by_cases hk : kv.1 = other
    · have hk2 : kv.1 ≠ key := fun h2 => hne (hk.symm.trans h2)
      simp [List.filter_cons, List.find?_cons, hk, hk2, hne, ih]
    · by_cases hk2 : kv.1 = key
      · have hko : ¬ key = other := fun h2 => hne h2.symm
        simp [List.filter_cons, List.find?_cons, hk2, hko]
      · simp [List.filter_cons, List.find?_cons, hk, hk2, ih]

/-- A key that was just assigned reads as the value assigned. -/
theorem headerGet_headerAssign_self (h : Header) (key : String) (val : List String) :
    headerGet (headerAssign h key val) key = some val := by
  simp [headerGet, headerAssign, List.find?_append, find?_filter_ne_self]

/-- The assignment of one key leaves the reading of every other key. -/
theorem headerGet_headerAssign_of_ne (h : Header) (key other : String) (val : List String)
    (hne : other ≠ key) :
    headerGet (headerAssign h other val) key = headerGet h key := by
  simp [headerGet, headerAssign, List.find?_append, find?_filter_ne_other h key other hne, hne]

/-- WriteJSON when the envelope does not serialise. -/
theorem WriteJSON_of_marshal_error {Data : Type}
    (marshal : JSON Data → Except GoError String) (writeFail : Option GoError)
    (w : ResponseWriter) (ctx : Context) (apiErr : Option ApiError) (data : Data)
    (headers : List Header) (s : GoError)
    (h : marshal (FormCtxGetJSON ctx data (apiErr.getD nilApiErr).bizCode
      (apiErr.getD nilApiErr).message) = .error s) :
    WriteJSON marshal writeFail w ctx apiErr data headers =
      .ret ({ header := headerSet w.header "Status" (StatusText 500),
              status := some (w.status.getD 500), body := w.body },
            some (apiErr.getD nilApiErr)) := by
  have hcode : ¬ ((500 : Int) < 100 ∨ (500 : Int) > 999) := by decide
  cases apiErr with
  | none =>
    simp only [Option.getD_none] at h
    unfold WriteJSON
    simp only [h, ResponseWriter.WriteHeader, hcode, if_false, AsException_val]
    cases hs : w.status <;> simp [hs]
  | some a =>
    simp only [Option.getD_some] at h
    unfold WriteJSON
    simp only [h, ResponseWriter.WriteHeader, hcode, if_false, AsException_val]
    cases hs : w.status <;> simp [hs]

/-- WriteJSON when the envelope serialises, the status code is one the
writer takes and the write succeeds. -/
theorem WriteJSON_of_success {Data : Type}
    (marshal : JSON Data → Except GoError String)
    (w : ResponseWriter) (ctx : Context) (apiErr : Option ApiError) (data : Data)
    (headers : List Header) (buf : String)
    (h : marshal (FormCtxGetJSON ctx data (apiErr.getD nilApiErr).bizCode
      (apiErr.getD nilApiErr).message) = .ok buf)
    (hc : ¬ ((apiErr.getD nilApiErr).statusCode < 100 ∨
      (apiErr.getD nilApiErr).statusCode > 999)) :
    WriteJSON marshal none w ctx apiErr data headers =
      .ret ({ header := headerSet (headerSet
                (if headers.length > 0 then mergeHeaders w.header headers else w.header)
                "Content-Type" "application/json") "Status"
                (StatusText (apiErr.getD nilApiErr).statusCode),
              status := some (w.status.getD (apiErr.getD nilApiErr).statusCode),
              body := w.body ++ buf }, none) := by
  cases apiErr with
  | none =>
    simp only [Option.getD_none] at h hc ⊢
    unfold WriteJSON
    simp only [h, ResponseWriter.WriteHeader, hc, if_false, ResponseWriter.Write]
    cases hs : w.status <;> by_cases hh : headers.length > 0 <;> simp [hh, hs]
  | some a =>
    simp only [Option.getD_some] at h hc ⊢
    unfold WriteJSON
    simp only [h, ResponseWriter.WriteHeader, hc, if_false, ResponseWriter.Write]
    cases hs : w.status <;> by_cases hh : headers.length > 0 <;> simp [hh, hs]

/-- WriteJSON when the envelope serialises, the status code is one the
writer takes and the write fails: the error AsException returns is
returned. -/
theorem WriteJSON_of_write_error {Data : Type}
    (marshal : JSON Data → Except GoError String) (werr : GoError)
    (w : ResponseWriter) (ctx : Context) (apiErr : Option ApiError) (data : Data)
    (headers : List Header) (buf : String) (r : ApiError)
    (h : marshal (FormCtxGetJSON ctx data (apiErr.getD nilApiErr).bizCode
      (apiErr.getD nilApiErr).message) = .ok buf)
    (hc : ¬ ((apiErr.getD nilApiErr).statusCode < 100 ∨
      (apiErr.getD nilApiErr).statusCode > 999))
    (hr : (apiErr.getD nilApiErr).AsException (.val (some werr)) ["写入response错误"] = .ret r) :
    WriteJSON marshal (some werr) w ctx apiErr data headers =
      .ret ({ header := headerSet (headerSet
                (if headers.length > 0 then mergeHeaders w.header headers else w.header)
                "Content-Type" "application/json") "Status"
                (StatusText (apiErr.getD nilApiErr).statusCode),
              status := some (w.status.getD (apiErr.getD nilApiErr).statusCode),
              body := w.body }, some r) := by
  cases apiErr with
  | none =>
    simp only [Option.getD_none] at h hc hr ⊢
    unfold WriteJSON
    simp only [h, ResponseWriter.WriteHeader, hc, if_false, ResponseWriter.Write]
    cases hs : w.status <;> by_cases hh : headers.length > 0 <;> simp [hh, hs, hr]
  | some a =>
    simp only [Option.getD_some] at h hc hr ⊢
    unfold WriteJSON
    simp only [h, ResponseWriter.WriteHeader, hc, if_false, ResponseWriter.Write]
    cases hs : w.status <;> by_cases hh : headers.length > 0 <;> simp [hh, hs, hr]

/-- C5, as stated, fails: with a nil apiErr, a payload that serialises and a
write that succeeds, WriteJSON answers with status 500 and returns nil, not an
ApiError. -/
theorem WriteJSON_nil_apiErr_returns_nil :
    WriteJSON (fun _ : JSON Unit =>
          .ok "\x7b\"bizCode\":\"500\",\"message\":\"Internal Server Error\",\"data\":null\x7d")
        none ⟨[], none, ""⟩ ⟨none, none⟩ none () []
      = .ret (⟨[("Content-Type", ["application/json"]), ("Status", ["Internal Server Error"])],
          some 500,
          "\x7b\"bizCode\":\"500\",\"message\":\"Internal Server Error\",\"data\":null\x7d"⟩,
          none) := by
  rw [WriteJSON_of_success _ _ _ _ _ _ _ rfl (by decide)]
  simp [nilApiErr, StatusText_500, headerSet, headerAssign]

/-- C5, amended: with a nil apiErr WriteJSON does not panic.  It works on
the envelope of the built-in error (bizCode 500, message Internal Server
Error) and, on a writer whose header is not yet written, answers with status
500; when the envelope serialises, the response has Content-Type
application/json and Status Internal Server Error, and when the write
succeeds too its body is the serialised envelope.  WriteJSON returns nil
exactly when the envelope serialises and the write succeeds; otherwise it
returns an ApiError with statusCode 500 and bizCode 500 whose cause chain
holds the synthetic cause. -/
theorem WriteJSON_nil_apiErr_contract {Data : Type}
    (marshal : JSON Data → Except GoError String) (writeFail : Option GoError)
    (w : ResponseWriter) (ctx : Context) (data : Data) (headers : List Header) :
    ∃ w1 r, WriteJSON marshal writeFail w ctx none data headers = .ret (w1, r) ∧
      (w.status = none → w1.status = some 500) ∧
      (r = none ↔
        (∃ buf, marshal (FormCtxGetJSON ctx data "500" "Internal Server Error") = .ok buf) ∧
          writeFail = none) ∧
      (∀ buf, marshal (FormCtxGetJSON ctx data "500" "Internal Server Error") = .ok buf →
        headerGet w1.header "Content-Type" = some ["application/json"] ∧
        headerGet w1.header "Status" = some ["Internal Server Error"] ∧
        (writeFail = none → w1.body = w.body ++ buf)) ∧
      (∀ e, r = some e →
        e.statusCode = 500 ∧ e.bizCode = "500" ∧
        errorsNew "apiErr *ApiError 不能为nil" ∈ chainOpt e.exception) := by
  have hbiz : nilApiErr.bizCode = "500" := by decide
  have hmsg : nilApiErr.message = "Internal Server Error" := by decide
  have hst : nilApiErr.statusCode = 500 := rfl
  have hsyn : errorsNew "apiErr *ApiError 不能为nil" ∈ chainOpt nilApiErr.exception := by
    simp [nilApiErr, chainOpt, errorsNew, GoError.chain]
  have hct : ∀ H : Header, headerGet (headerSet (headerSet H "Content-Type" "application/json")
      "Status" (StatusText 500)) "Content-Type" = some ["application/json"] := by
    intro H
    unfold headerSet
    rw [headerGet_headerAssign_of_ne _ _ _ _ (by decide), headerGet_headerAssign_self]
  have hsh : ∀ H : Header, headerGet (headerSet (headerSet H "Content-Type" "application/json")
      "Status" (StatusText 500)) "Status" = some ["Internal Server Error"] := by
    intro H
    unfold headerSet
    rw [headerGet_headerAssign_self, StatusText_500]
  cases hm : marshal (FormCtxGetJSON ctx data "500" "Internal Server Error") with
  | error s =>
    have hm2 : marshal (FormCtxGetJSON ctx data ((none : Option ApiError).getD nilApiErr).bizCode
        ((none : Option ApiError).getD nilApiErr).message) = .error s := by
      simpa [hbiz, hmsg] using hm
    refine ⟨_, _, WriteJSON_of_marshal_error marshal writeFail w ctx none data headers s hm2,
      ?_, ?_, ?_, ?_⟩
    · intro hs; simp [hs]
    · simp
    · intro buf hbuf; cases hbuf
    · intro e he
      simp only [Option.getD_none, Option.some.injEq] at he
      subst he
      exact ⟨hst, hbiz, hsyn⟩
  | ok buf =>
    have hm2 : marshal (FormCtxGetJSON ctx data ((none : Option ApiError).getD nilApiErr).bizCode
        ((none : Option ApiError).getD nilApiErr).message) = .ok buf := by
      simpa [hbiz, hmsg] using hm
    have hc : ¬ (((none : Option ApiError).getD nilApiErr).statusCode < 100 ∨
        ((none : Option ApiError).getD nilApiErr).statusCode > 999) := by
      simp only [Option.getD_none, hst]; decide
    cases hf : writeFail with
    | none =>
      refine ⟨_, _, WriteJSON_of_success marshal w ctx none data headers buf hm2 hc,
        ?_, ?_, ?_, ?_⟩
      · intro hs; simp [hs, hst]
      · simp
      · intro buf2 hbuf
        cases hbuf
        exact ⟨hct _, hsh _, fun _ => rfl⟩
      · intro e he; cases he
    | some werr =>
      have hr := AsException_val nilApiErr (some werr) ["写入response错误"]
      refine ⟨_, _, WriteJSON_of_write_error marshal werr w ctx none data headers buf _
        hm2 hc hr, ?_, ?_, ?_, ?_⟩
      · intro hs; simp [hs, hst]
      · simp
      · intro buf2 hbuf
        cases hbuf
        exact ⟨hct _, hsh _, fun h2 => by cases h2⟩
      · intro e he
        simp only [Option.some.injEq] at he
        subst he
        exact ⟨hst, hbiz, AsException_keeps_chain _ _ _ _ hr _ hsyn⟩

/-- Witness of C5 amended: a fresh writer and a payload that serialises, with
a write that succeeds. -/
theorem WriteJSON_nil_apiErr_contract_witness :
    ∃ w1 r, WriteJSON (fun _ : JSON Unit => .ok "body") none ⟨[], none, ""⟩ ⟨none, none⟩
        none () [] = .ret (w1, r) ∧
      w1.status = some 500 ∧ r = none ∧
      headerGet w1.header "Content-Type" = some ["application/json"] ∧
      headerGet w1.header "Status" = some ["Internal Server Error"] ∧
      w1.body = "" ++ "body" := by
  obtain ⟨w1, r, h1, h2, h3, h4, _⟩ := WriteJSON_nil_apiErr_contract
    (fun _ : JSON Unit => .ok "body") none ⟨[], none, ""⟩ ⟨none, none⟩ () []
  have hok : (fun _ : JSON Unit => (Except.ok "body" : Except GoError String))
      (FormCtxGetJSON ⟨none, none⟩ () "500" "Internal Server Error") = .ok "body" := rfl
  exact ⟨w1, r, h1, h2 rfl, h3.2 ⟨⟨"body", hok⟩, rfl⟩, (h4 "body" hok).1, (h4 "body" hok).2.1,
    (h4 "body" hok).2.2 rfl⟩

/-- C6: at a payload that does not serialise, WriteJSON writes status 500 but
returns the given error as it was, without the serialisation failure in its
cause chain, although AsException on the same arguments returns an error
whose cause chain holds it: the result of AsException is dropped. -/
theorem WriteJSON_marshal_failure_returns_unchanged :
    WriteJSON (fun _ : JSON Unit => .error (.plain .other "json: unsupported type: chan int"))
        none ⟨[], none, ""⟩ ⟨none, none⟩
        (some ⟨"bad request", "BAD_REQUEST", none, 400⟩) () []
      = .ret (⟨[("Status", ["Internal Server Error"])], some 500, ""⟩,
          some ⟨"bad request", "BAD_REQUEST", none, 400⟩) ∧
    GoError.plain .other "json: unsupported type: chan int" ∉
      chainOpt (ApiError.exception ⟨"bad request", "BAD_REQUEST", none, 400⟩) ∧
    ApiError.AsException ⟨"bad request", "BAD_REQUEST", none, 400⟩
        (.val (some (.plain .other "json: unsupported type: chan int"))) ["json无法解析data数据"]
      = .ret ⟨"json无法解析data数据", "BAD_REQUEST",
          some (.wrapError "json: unsupported type: chan int"
            (some (.plain .other "json: unsupported type: chan int"))), 400⟩ ∧
    GoError.plain .other "json: unsupported type: chan int" ∈
      chainOpt (ApiError.exception ⟨"json无法解析data数据", "BAD_REQUEST",
          some (.wrapError "json: unsupported type: chan int"
            (some (.plain .other "json: unsupported type: chan int"))), 400⟩) := by
  refine ⟨?_, ?_, ?_, ?_⟩
  · rw [WriteJSON_of_marshal_error _ _ _ _ _ _ _ _ rfl]
    simp [StatusText_500, headerSet, headerAssign]
  · simp [chainOpt]
  · rw [AsException_val]
    simp [GoError.asApiError, Errorf1, fmtW, GoError.Error, stringsJoin]
    rfl
  · simp [chainOpt, GoError.chain]

/-- C10: with the limit as initialised, a body over the limit gives the
error whose text carries the limit in bytes, 2097152, before the unit MB, not
the 2 of the limit in megabytes. -/
theorem ReadJSON_too_large_reports_bytes :
    ReadJSON ReadJSONMaxBytes (some (.plain .maxBytesError "http: request body too large"))
      = some (errorsNew "请求体大小不能超过 2097152 MB") ∧
    ReadJSON ReadJSONMaxBytes (some (.plain .maxBytesError "http: request body too large"))
      ≠ some (errorsNew "请求体大小不能超过 2 MB") := by
  have h : ReadJSON ReadJSONMaxBytes (some (.plain .maxBytesError "http: request body too large"))
      = some (errorsNew "请求体大小不能超过 2097152 MB") := by
    have h1 : errorsAs (.plain .maxBytesError "http: request body too large") .jsonSyntaxError
        = false := by decide
    have h2 : errorsIsEOF (.plain .maxBytesError "http: request body too large") = false := by
      decide
    have h3 : stringsContains (GoError.plain .maxBytesError "http: request body too large").Error
        "http: request body too large" = true := by decide
    have h4 : "请求体大小不能超过 " ++ toString ReadJSONMaxBytes ++ " MB"
        = "请求体大小不能超过 2097152 MB" := by decide
    simp only [ReadJSON, h1, h2, h3, h4, if_true, Bool.false_eq_true, if_false]
  refine ⟨h, ?_⟩
  rw [h]
  simp only [errorsNew, ne_eq, Option.some.injEq, GoError.plain.injEq, true_and]
  decide

/-! ## Theorems: validation.go -/

/-- C7: the field-naming function names the field Email, tagged with json
email and zh 邮箱地址, by its declared name and not by its zh tag, and the
field tagged with json email alone by its declared name and not by its json
tag: the names read from the zh and json tags are overwritten before use. -/
theorem tagNameFunc_ignores_zh_and_json :
    tagNameFunc ⟨"Email", [("json", "email"), ("zh", "邮箱地址")]⟩ = "Email " ∧
    tagNameFunc ⟨"Email", [("json", "email")]⟩ = "Email " ∧
    tagNameFunc ⟨"Email", [("json", "email"), ("zh", "邮箱地址"), ("form", "mail")]⟩ = "mail " := by
  decide

/-- The items of `phoneRX` match a text exactly when it has eleven
characters: a 1, one of 3 to 9, and nine ASCII digits. -/
theorem matchHere_phoneRX (l : List Char) :
    Regexp.matchHere true ([.lit '1', .range '3' '9'] ++ List.replicate 9 .digit) l = true ↔
      l.length = 11 ∧ l[0]? = some '1' ∧ (∃ c, l[1]? = some c ∧ '3' ≤ c ∧ c ≤ '9') ∧
        ∀ c ∈ l.drop 2, c.isDigit = true := by
  rcases l with _ | ⟨c0, _ | ⟨c1, _ | ⟨c2, _ | ⟨c3, _ | ⟨c4, _ | ⟨c5, _ | ⟨c6, _ | ⟨c7,
    _ | ⟨c8, _ | ⟨c9, _ | ⟨c10, _ | ⟨c11, l⟩⟩⟩⟩⟩⟩⟩⟩⟩⟩⟩⟩ <;>
    simp [Regexp.matchHere, List.replicate, CharClass.accepts, and_assoc]

/-- C8: the rule vphone accepts a value exactly when it is a string of
eleven characters whose first is 1, whose second is one of 3 to 9 and whose
other nine are ASCII digits; every value that is not a string is rejected;
12345 is rejected and 13800000000 is accepted. -/
theorem vphone_accepts_iff (field : FieldValue) :
    (vphone field = true ↔
      ∃ s, field = .string s ∧ s.length = 11 ∧ s.data[0]? = some '1' ∧
        (∃ c, s.data[1]? = some c ∧ '3' ≤ c ∧ c ≤ '9') ∧
        ∀ c ∈ s.data.drop 2, c.isDigit = true) ∧
    ((∀ s, field ≠ .string s) → vphone field = false) ∧
    vphone (.string "12345") = false ∧
    vphone (.string "13800000000") = true := by
  refine ⟨?_, ?_, by decide, by decide⟩
  · cases field with
    | string s =>
      have hM : phoneRX.MatchString s = Regexp.matchHere true
          ([.lit '1', .range '3' '9'] ++ List.replicate 9 .digit) s.data := rfl
      have hv : vphone (.string s) = phoneRX.MatchString s := by
        simp only [vphone]
        cases phoneRX.MatchString s <;> rfl
      rw [hv, hM, matchHere_phoneRX]
      constructor
      · intro h
        exact ⟨s, rfl, h⟩
      · rintro ⟨s2, hs, hrest⟩
        cases hs
        exact hrest
    | namedString t s => simp [vphone]
    | int n => simp [vphone]
    | bool b => simp [vphone]
    | other t => simp [vphone]
  · intro hns
    cases field with
    | string s => exact absurd rfl (hns s)
    | namedString t s => rfl
    | int n => rfl
    | bool b => rfl
    | other t => rfl

/-- Witness of C8: a value of a named string type holding a well-formed
number is rejected, for it is not a `string`. -/
theorem vphone_accepts_iff_witness :
    vphone (.namedString "Phone" "13800000000") = false :=
  (vphone_accepts_iff (.namedString "Phone" "13800000000")).2.1 (fun s h => by cases h)

/-- Once the `sync.Once` is done, calls of InitValidation change nothing and
each returns the package variables. -/
theorem initCalls_of_done (st : ValidationState) (hd : st.onceDone = true)
    (cs : List (String × List RegisterValidationHandler)) :
    initCalls st cs = (st, List.replicate cs.length (st.trans, st.validate)) := by
  induction cs with
  | nil => rfl
  | cons c cs ih =>
    have h1 : InitValidation st c.1 c.2 = (st, (st.trans, st.validate)) := by
      simp [InitValidation, hd]
    simp only [initCalls, h1, ih, List.length_cons, List.replicate_succ]

/-- C9: from process start, in every sequence of calls of InitValidation the
body runs once, on the first call; every call returns the pair built from the
first call, whose locale is taken as it is when it is zh or en and as zh
otherwise; what the later calls pass changes neither the pair nor the
package variables. -/
theorem InitValidation_first_call_wins (locale : String)
    (handlers : List RegisterValidationHandler)
    (later : List (String × List RegisterValidationHandler)) :
    ∃ st1 pair,
      InitValidation .initial locale handlers = (st1, pair) ∧
      pair = (some ⟨if locale = "zh" ∨ locale = "en" then locale else "zh"⟩,
        some (((handlers.foldl (fun v handle => handle v)
            (validatorNew.RegisterValidation "vphone" vphone)).RegisterTagNameFunc
              tagNameFunc).RegisterDefaultTranslations
                (if locale = "zh" ∨ locale = "en" then locale else "zh"))) ∧
      st1.setupRuns = 1 ∧ st1.onceDone = true ∧
      initCalls .initial ((locale, handlers) :: later)
        = (st1, List.replicate (later.length + 1) pair) ∧
      (initCalls .initial ((locale, handlers) :: later)).1.setupRuns = 1 := by
  have hfold : (if handlers.length > 0 then
        handlers.foldl (fun v handle => handle v) (validatorNew.RegisterValidation "vphone" vphone)
      else validatorNew.RegisterValidation "vphone" vphone)
      = handlers.foldl (fun v handle => handle v)
          (validatorNew.RegisterValidation "vphone" vphone) := by
    cases handlers <;> simp
  have hfirst : InitValidation .initial locale handlers =
      ({ onceDone := true,
         trans := some ⟨if locale = "zh" ∨ locale = "en" then locale else "zh"⟩,
         validate := some (((handlers.foldl (fun v handle => handle v)
            (validatorNew.RegisterValidation "vphone" vphone)).RegisterTagNameFunc
              tagNameFunc).RegisterDefaultTranslations
                (if locale = "zh" ∨ locale = "en" then locale else "zh")),
         setupRuns := 1 },
       (some ⟨if locale = "zh" ∨ locale = "en" then locale else "zh"⟩,
        some (((handlers.foldl (fun v handle => handle v)
            (validatorNew.RegisterValidation "vphone" vphone)).RegisterTagNameFunc
              tagNameFunc).RegisterDefaultTranslations
                (if locale = "zh" ∨ locale = "en" then locale else "zh")))) := by
    simp only [InitValidation, ValidationState.initial, initBody, hfold, GetTranslator]
    by_cases hz : locale = "zh"
    · subst hz; simp
    · by_cases he : locale = "en"
      · subst he; simp
      · simp [hz, he]
  refine ⟨_, _, hfirst, rfl, rfl, rfl, ?_, ?_⟩
  · simp only [initCalls, hfirst]
    rw [initCalls_of_done _ rfl]
    simp [List.replicate_succ]
  · simp only [initCalls, hfirst]
    rw [initCalls_of_done _ rfl]

end Gotk
